import Mathlib

/-!
Verification of the dead-letter-queue archival lambda
(`packages/api/lambdas/write-db-dlq-records-to-s3.js`).

JavaScript values are shallowly embedded as `JVal` (JSON-like trees).
Pure helpers of the lambda (`payloadHasGranules`, `extractCollectionId`,
`extractGranules`, `hoistCumulusMessageDetails`, `handler`) are translated
from the source.  External collaborators that live outside the provided
sources (the queue-record recognizers and body parser, the event
classifier, the collection-id composer, the provider helpers) are modelled
from the specification, and the fully opaque collaborators (the
full-message resolver, the unique-token generator, the date formatter,
the serializer, the object-store write) are passed in as parameters.
-/

/-- A JavaScript/JSON value: the data the lambda manipulates. -/
inductive JVal where
  | null : JVal
  | bool (b : Bool) : JVal
  | num (n : Int) : JVal
  | str (s : String) : JVal
  | arr (elems : List JVal) : JVal
  | obj (fields : List (String × JVal)) : JVal
deriving Repr

/-- Property lookup on an object field list (first match wins;
JavaScript objects have unique keys). -/
def lookupField : List (String × JVal) → String → Option JVal
  | [], _ => none
  | (k, v) :: rest, key => if k = key then some v else lookupField rest key

/-- `v[key]`: property access; `none` models JavaScript `undefined`
(missing property, or access on a non-object). -/
def JVal.get : JVal → String → Option JVal
  | .obj fs, key => lookupField fs key
  | _, _ => none

/-- JavaScript truthiness of a value. -/
def JVal.truthy : JVal → Bool
  | .null => false
  | .bool b => b
  | .num n => n != 0
  | .str s => s != ""
  | .arr _ => true
  | .obj _ => true

/-- `x || d` for a possibly-undefined `x`: the value when truthy,
otherwise the default. -/
def jsOr (x : Option JVal) (d : JVal) : JVal :=
  match x with
  | some v => if v.truthy then v else d
  | none => d

mutual
/-- Structural size of a value, the termination measure of the
unwrap loop. -/
def JVal.size : JVal → Nat
  | .null => 1
  | .bool _ => 1
  | .num _ => 1
  | .str _ => 1
  | .arr xs => 1 + sizeList xs
  | .obj fs => 1 + sizeFields fs

/-- Size of an array's elements. -/
def sizeList : List JVal → Nat
  | [] => 0
  | x :: xs => 1 + x.size + sizeList xs

/-- Size of an object's fields. -/
def sizeFields : List (String × JVal) → Nat
  | [] => 0
  | (_, v) :: fs => 1 + v.size + sizeFields fs
end

mutual
/-- JavaScript string coercion, as performed by template literals. -/
def JVal.jsToString : JVal → String
  | .null => "null"
  | .bool b => if b then "true" else "false"
  | .num n => toString n
  | .str s => s
  | .arr xs => jsToStringList xs
  | .obj _ => "[object Object]"

/-- Array coercion joins the elements with commas. -/
def jsToStringList : List JVal → String
  | [] => ""
  | [x] => x.jsToString
  | x :: y :: xs => x.jsToString ++ "," ++ jsToStringList (y :: xs)
end

/-- Modelled from the spec: the queue-record recognizer
(`isSQSRecordLike` of `@cumulus/aws-client/SQS`, which is not under
`src/`): reports whether a value is a nested envelope, i.e. an object
carrying a `body` payload. -/
def isSQSRecordLike (v : JVal) : Bool :=
  match v with
  | .obj fs => (lookupField fs "body").isSome
  | _ => false

/-- Modelled from the spec: the body parser
(`parseSQSMessageBody` of `@cumulus/aws-client/SQS`, which is not under
`src/`): returns the envelope's inner body (the transport-string
decoding is elided, the body is carried directly as a value). -/
def parseSQSMessageBody (v : JVal) : JVal :=
  (v.get "body").getD .null

/-- Modelled from the spec: the failure-record recognizer
(`isDLQRecordLike` of `@cumulus/message/DeadLetterMessage`, which is not
under `src/`): a queue-record-like value that carries a top-level
`error` field. -/
def isDLQRecordLike (v : JVal) : Bool :=
  isSQSRecordLike v && (v.get "error").isSome

/-- Modelled from the spec: the execution-event recognizer
(`isEventBridgeEvent` of `@cumulus/aws-client/Lambda`, which is not
under `src/`): matches the workflow-status-change shape, a nested
`detail` object together with a top-level timestamp. -/
def isEventBridgeEvent (v : JVal) : Bool :=
  (match v.get "detail" with
   | some (.obj _) => true
   | _ => false)
  && (v.get "time").isSome

/-- Modelled from the spec: the collection-id composer
(`constructCollectionId` of `@cumulus/message/Collections`, which is not
under `src/`): the canonical composite `name___version`. -/
def constructCollectionId (name version : String) : String :=
  name ++ "___" ++ version

/-- Modelled from the spec: the provider-bearing recognizer
(`isMessageWithProvider` of `@cumulus/message/Providers`, which is not
under `src/`): the message names a provider. -/
def isMessageWithProvider (m : JVal) : Bool :=
  (((m.get "meta").bind (fun x => x.get "provider")).bind
    (fun x => x.get "id")).isSome

/-- Modelled from the spec: the provider-id getter
(`getMessageProviderId` of `@cumulus/message/Providers`, which is not
under `src/`): the named provider's identifier. -/
def getMessageProviderId (m : JVal) : Option JVal :=
  ((m.get "meta").bind (fun x => x.get "provider")).bind (fun x => x.get "id")

/-- `payloadHasGranules` from the source: the payload is an object whose
`granules` property is an array. -/
def payloadHasGranules (payload : Option JVal) : Bool :=
  match payload with
  | some (.obj fs) =>
    match lookupField fs "granules" with
    | some (.arr _) => true
    | _ => false
  | _ => false

/-- `extractCollectionId` from the source: compose the identifier when
both `meta.collection.name` and `meta.collection.version` are truthy
(`message?.meta?.collection?.name || null`), null otherwise. -/
def extractCollectionId (message : JVal) : JVal :=
  let collectionName :=
    jsOr (((message.get "meta").bind (fun x => x.get "collection")).bind
      (fun x => x.get "name")) .null
  let collectionVersion :=
    jsOr (((message.get "meta").bind (fun x => x.get "collection")).bind
      (fun x => x.get "version")) .null
  if collectionName.truthy && collectionVersion.truthy then
    .str (constructCollectionId collectionName.jsToString
      collectionVersion.jsToString)
  else .null

/-- `extractGranules` from the source: when the payload has a `granules`
array, map each element to `granule?.granuleId || null`; otherwise
null. -/
def extractGranules (message : JVal) : JVal :=
  match message.get "payload" with
  | some (.obj fs) =>
    match lookupField fs "granules" with
    | some (.arr gs) => .arr (gs.map (fun g => jsOr (g.get "granuleId") .null))
    | _ => .null
  | _ => .null

/-- The error update performed by one iteration of the unwrap loop:
capture `messageBody.error || null` while no truthy error is held. -/
def nextError (messageBody error : JVal) : JVal :=
  if isDLQRecordLike messageBody && !error.truthy then
    jsOr (messageBody.get "error") .null
  else error

/-- Fuel-indexed unwrap loop (`while (isSQSRecordLike(messageBody))` in
`hoistCumulusMessageDetails`); the fuel is only a termination device,
`hoistUnwrap` supplies enough of it for the loop to run to completion
(`hoistUnwrap_eq` recovers the fuel-free loop equation). -/
def unwrapGo : Nat → JVal → JVal → JVal × JVal
  | 0, messageBody, error => (messageBody, error)
  | fuel + 1, messageBody, error =>
    if isSQSRecordLike messageBody then
      unwrapGo fuel (parseSQSMessageBody messageBody)
        (nextError messageBody error)
    else (messageBody, error)

/-- The unwrap loop of `hoistCumulusMessageDetails`: de-nest queue
records of unknown depth, capturing the outermost truthy recorded
error; returns the innermost body and the captured error. -/
def hoistUnwrap (messageBody error : JVal) : JVal × JVal :=
  unwrapGo messageBody.size messageBody error

/-- Fuel-indexed layer enumeration, mirroring `unwrapGo`. -/
def layersGo : Nat → JVal → List JVal
  | 0, _ => []
  | fuel + 1, v =>
    if isSQSRecordLike v then v :: layersGo fuel (parseSQSMessageBody v)
    else []

/-- The successive queue-record-like layers of a value, outside in. -/
def layersOf (v : JVal) : List JVal :=
  layersGo v.size v

/-- The error the unwrap loop retains, described over the layer list:
the normalized `error` field of the outermost layer whose `error` field
is truthy, null when there is none. -/
def firstError : List JVal → JVal
  | [] => .null
  | l :: rest =>
    if isDLQRecordLike l && (jsOr (l.get "error") .null).truthy then
      jsOr (l.get "error") .null
    else firstError rest

theorem JVal.size_pos (v : JVal) : 0 < v.size := by
  cases v <;> simp [JVal.size]

theorem lookupField_size_lt {fs : List (String × JVal)} {k : String}
    {v : JVal} (h : lookupField fs k = some v) :
    v.size < 1 + sizeFields fs := by
  induction fs with
  | nil => simp [lookupField] at h
  | cons p rest ih =>
    obtain ⟨k₀, v₀⟩ := p
    by_cases hk : k₀ = k
    · simp only [lookupField, if_pos hk] at h
      cases h
      simp [sizeFields]
      omega
    · simp only [lookupField, if_neg hk] at h
      have := ih h
      simp [sizeFields]
      omega

theorem parse_size_lt {v : JVal} (h : isSQSRecordLike v = true) :
    (parseSQSMessageBody v).size < v.size := by
  cases v with
  | obj fs =>
    rw [isSQSRecordLike, Option.isSome_iff_exists] at h
    obtain ⟨b, hb⟩ := h
    have hparse : parseSQSMessageBody (JVal.obj fs) = b := by
      rw [parseSQSMessageBody, JVal.get, hb]
      rfl
    have hsz : (JVal.obj fs).size = 1 + sizeFields fs := by
      simp [JVal.size]
    rw [hparse, hsz]
    exact lookupField_size_lt hb
  | null => simp [isSQSRecordLike] at h
  | bool b => simp [isSQSRecordLike] at h
  | num n => simp [isSQSRecordLike] at h
  | str s => simp [isSQSRecordLike] at h
  | arr xs => simp [isSQSRecordLike] at h

theorem unwrapGo_fuel_irrel :
    ∀ n mb, mb.size ≤ n → ∀ f₁ f₂ e, mb.size ≤ f₁ → mb.size ≤ f₂ →
      unwrapGo f₁ mb e = unwrapGo f₂ mb e := by
  intro n
  induction n with
  | zero => intro mb hmb; have := mb.size_pos; omega
  | succ n ih =>
    intro mb hmb f₁ f₂ e h₁ h₂
    have hpos := mb.size_pos
    cases f₁ with
    | zero => omega
    | succ a =>
      cases f₂ with
      | zero => omega
      | succ b =>
        by_cases hs : isSQSRecordLike mb = true
        · have hlt := parse_size_lt hs
          rw [unwrapGo, unwrapGo, if_pos hs, if_pos hs]
          exact ih (parseSQSMessageBody mb) (by omega) a b _
            (by omega) (by omega)
        · rw [unwrapGo, unwrapGo, if_neg hs, if_neg hs]

/-- The unwrap loop satisfies its loop equation: one test, possibly one
peel, then the loop again. -/
theorem hoistUnwrap_eq (mb e : JVal) :
    hoistUnwrap mb e =
      if isSQSRecordLike mb then
        hoistUnwrap (parseSQSMessageBody mb) (nextError mb e)
      else (mb, e) := by
  have hpos := mb.size_pos
  by_cases hs : isSQSRecordLike mb = true
  · have hlt := parse_size_lt hs
    rw [if_pos hs]
    rw [hoistUnwrap]
    obtain ⟨k, hk⟩ : ∃ k, mb.size = k + 1 := ⟨mb.size - 1, by omega⟩
    rw [hk, unwrapGo, if_pos hs, hoistUnwrap]
    exact unwrapGo_fuel_irrel k _ (by omega) _ _ _ (by omega) (by omega)
  · rw [if_neg hs, hoistUnwrap]
    obtain ⟨k, hk⟩ : ∃ k, mb.size = k + 1 := ⟨mb.size - 1, by omega⟩
    rw [hk, unwrapGo, if_neg hs]

theorem layersGo_fuel_irrel :
    ∀ n v, v.size ≤ n → ∀ f₁ f₂, v.size ≤ f₁ → v.size ≤ f₂ →
      layersGo f₁ v = layersGo f₂ v := by
  intro n
  induction n with
  | zero => intro v hv; have := v.size_pos; omega
  | succ n ih =>
    intro v hv f₁ f₂ h₁ h₂
    have hpos := v.size_pos
    cases f₁ with
    | zero => omega
    | succ a =>
      cases f₂ with
      | zero => omega
      | succ b =>
        by_cases hs : isSQSRecordLike v = true
        · have hlt := parse_size_lt hs
          rw [layersGo, layersGo, if_pos hs, if_pos hs]
          rw [ih (parseSQSMessageBody v) (by omega) a b (by omega) (by omega)]
        · rw [layersGo, layersGo, if_neg hs, if_neg hs]

/-- The layer enumeration satisfies its own loop equation. -/
theorem layersOf_eq (v : JVal) :
    layersOf v =
      if isSQSRecordLike v then v :: layersOf (parseSQSMessageBody v)
      else [] := by
  have hpos := v.size_pos
  by_cases hs : isSQSRecordLike v = true
  · have hlt := parse_size_lt hs
    rw [if_pos hs, layersOf]
    obtain ⟨k, hk⟩ : ∃ k, v.size = k + 1 := ⟨v.size - 1, by omega⟩
    rw [hk, layersGo, if_pos hs, layersOf]
    rw [layersGo_fuel_irrel k (parseSQSMessageBody v) (by omega) k
      (parseSQSMessageBody v).size (by omega) (le_refl _)]
  · rw [if_neg hs, layersOf]
    obtain ⟨k, hk⟩ : ∃ k, v.size = k + 1 := ⟨v.size - 1, by omega⟩
    rw [hk, layersGo, if_neg hs]

theorem jsOr_null_cases (x : Option JVal) :
    jsOr x JVal.null = JVal.null ∨ (jsOr x JVal.null).truthy = true := by
  match x with
  | none => left; rfl
  | some v =>
    by_cases hv : v.truthy = true
    · right; rw [jsOr, if_pos hv]; exact hv
    · left; rw [jsOr, if_neg hv]

theorem nextError_cases (mb e : JVal) (he : e = JVal.null ∨ e.truthy = true) :
    nextError mb e = JVal.null ∨ (nextError mb e).truthy = true := by
  rw [nextError]
  by_cases hg : (isDLQRecordLike mb && !e.truthy) = true
  · rw [if_pos hg]; exact jsOr_null_cases _
  · rw [if_neg hg]; exact he

/-- Invariant of the unwrap loop: the final error is the held error when
that is already truthy, and otherwise the first truthy layer error; the
final body is never queue-record-like. -/
theorem unwrap_invariant :
    ∀ n v, JVal.size v ≤ n → ∀ e, (e = JVal.null ∨ e.truthy = true) →
      isSQSRecordLike (hoistUnwrap v e).1 = false ∧
      (hoistUnwrap v e).2 =
        (if e.truthy then e else firstError (layersOf v)) := by
  intro n
  induction n with
  | zero => intro v hv; have := v.size_pos; omega
  | succ n ih =>
    intro v hv e he
    by_cases hs : isSQSRecordLike v = true
    · have hlt := parse_size_lt hs
      rw [hoistUnwrap_eq, if_pos hs, layersOf_eq, if_pos hs]
      have he' := nextError_cases v e he
      have hih := ih (parseSQSMessageBody v) (by omega) (nextError v e) he'
      refine ⟨hih.1, ?_⟩
      rw [hih.2]
      by_cases het : e.truthy = true
      · have hne : nextError v e = e := by
          rw [nextError, het]
          simp
        rw [hne, if_pos het, if_pos het]
      · have hetf : e.truthy = false := by
          cases h : e.truthy
          · rfl
          · exact absurd h het
        rw [if_neg het]
        by_cases hd : isDLQRecordLike v = true
        · have hne : nextError v e = jsOr (v.get "error") JVal.null := by
            rw [nextError, hd, hetf]
            simp
          by_cases hot : (jsOr (v.get "error") JVal.null).truthy = true
          · rw [hne, if_pos hot, firstError, hd, hot]
            simp
          · have hon : jsOr (v.get "error") JVal.null = JVal.null := by
              rcases jsOr_null_cases (v.get "error") with h | h
              · exact h
              · exact absurd h hot
            rw [hne, hon, firstError, hd]
            have : (jsOr (v.get "error") JVal.null).truthy = false := by
              rw [hon]; rfl
            rw [this]
            simp [JVal.truthy]
        · have hdf : isDLQRecordLike v = false := by
            cases h : isDLQRecordLike v
            · rfl
            · exact absurd h hd
          have hne : nextError v e = e := by
            rw [nextError, hdf]
            simp
          rw [hne, if_neg het, firstError, hdf]
          simp
    · rw [hoistUnwrap_eq, if_neg hs, layersOf_eq, if_neg hs]
      constructor
      · cases h : isSQSRecordLike v
        · rfl
        · exact absurd h hs
      · rcases he with h | h
        · rw [h]
          rfl
        · rw [if_pos h]

theorem firstError_eq_null_of_no_error (ls : List JVal)
    (h : ∀ l ∈ ls, l.get "error" = none) : firstError ls = JVal.null := by
  induction ls with
  | nil => rfl
  | cons l rest ih =>
    have hl := h l (List.mem_cons_self l rest)
    have hd : isDLQRecordLike l = false := by
      rw [isDLQRecordLike, hl]
      simp
    rw [firstError, hd]
    simp only [Bool.false_and, if_false]
    exact ih (fun x hx => h x (List.mem_cons_of_mem l hx))

/-- Assignment `obj[key] = v` on a field list: replace the value in
place when the key exists, append otherwise. -/
def setField : List (String × JVal) → String → JVal → List (String × JVal)
  | [], key, v => [(key, v)]
  | (k₀, v₀) :: rest, key, v =>
    if k₀ = key then (k₀, v) :: rest else (k₀, v₀) :: setField rest key v

/-- One assignment step of an object-literal update list. -/
def spreadStep (acc : List (String × JVal)) (p : String × JVal) :
    List (String × JVal) :=
  setField acc p.1 p.2

/-- The own fields a value contributes when spread into an object
literal (a primitive contributes none). -/
def baseFields : JVal → List (String × JVal)
  | .obj fs => fs
  | _ => []

/-- The object literal `{...base, k1: v1, ..., kn: vn}`: the base's own
fields, then each update assigned in order. -/
def objSpread (base : JVal) (updates : List (String × JVal)) : JVal :=
  .obj (updates.foldl spreadStep (baseFields base))

theorem lookup_setField_self (fs : List (String × JVal)) (key : String)
    (v : JVal) : lookupField (setField fs key v) key = some v := by
  induction fs with
  | nil => simp [setField, lookupField]
  | cons p rest ih =>
    obtain ⟨k₀, v₀⟩ := p
    by_cases hk : k₀ = key
    · rw [setField, if_pos hk, lookupField, if_pos hk]
    · rw [setField, if_neg hk, lookupField, if_neg hk]
      exact ih

theorem lookup_setField_other (fs : List (String × JVal)) (key : String)
    (v : JVal) (key₂ : String) (h : key₂ ≠ key) :
    lookupField (setField fs key v) key₂ = lookupField fs key₂ := by
  induction fs with
  | nil =>
    have hne : ¬ key = key₂ := fun hc => h hc.symm
    simp [setField, lookupField, hne]
  | cons p rest ih =>
    obtain ⟨k₀, v₀⟩ := p
    by_cases hk : k₀ = key
    · have hne : ¬ k₀ = key₂ := fun hc => h (hk.symm.trans hc).symm
      rw [setField, if_pos hk, lookupField, lookupField, if_neg hne,
        if_neg hne]
    · rw [setField, if_neg hk, lookupField, lookupField]
      by_cases hk₂ : k₀ = key₂
      · rw [if_pos hk₂, if_pos hk₂]
      · rw [if_neg hk₂, if_neg hk₂, ih]

theorem lookup_foldl_not_mem (updates : List (String × JVal))
    (fs : List (String × JVal)) (key : String)
    (h : ∀ p ∈ updates, p.1 ≠ key) :
    lookupField (updates.foldl spreadStep fs) key = lookupField fs key := by
  induction updates generalizing fs with
  | nil => rfl
  | cons p rest ih =>
    rw [List.foldl_cons,
      ih (spreadStep fs p) (fun q hq => h q (List.mem_cons_of_mem p hq)),
      spreadStep]
    exact lookup_setField_other fs p.1 p.2 key
      (fun hc => h p (List.mem_cons_self p rest) hc.symm)

theorem lookup_foldl_mem (updates : List (String × JVal))
    (fs : List (String × JVal)) (key : String) (v : JVal)
    (hnd : (updates.map Prod.fst).Nodup) (hmem : (key, v) ∈ updates) :
    lookupField (updates.foldl spreadStep fs) key = some v := by
  induction updates generalizing fs with
  | nil => simp at hmem
  | cons p rest ih =>
    rw [List.map_cons, List.nodup_cons] at hnd
    rw [List.foldl_cons]
    rcases List.mem_cons.mp hmem with heq | hrest
    · subst heq
      have hnm : ∀ q ∈ rest, q.1 ≠ key := by
        intro q hq hc
        have hm := List.mem_map_of_mem Prod.fst hq
        rw [hc] at hm
        exact hnd.1 hm
      rw [lookup_foldl_not_mem rest (spreadStep fs (key, v)) key hnm]
      exact lookup_setField_self fs key v
    · exact ih (spreadStep fs p) hnd.2 hrest

/-- The eight normalized top-level attributes added by
`hoistCumulusMessageDetails`, in source order. -/
def enrichmentKeys : List String :=
  ["collectionId", "providerId", "granules", "executionArn",
   "stateMachineArn", "status", "time", "error"]

/-- The enrichment values computed by `hoistCumulusMessageDetails`,
paired with their keys in the order of the source's object literal.  The
external full-message resolver (`getCumulusMessageFromExecutionEvent`,
whose failure is caught by the source's try/catch) is a parameter
returning `Except`. -/
def hoistDetails (resolver : JVal → Except String JVal)
    (dlqRecord : JVal) : List (String × JVal) :=
  let unwrapped := hoistUnwrap dlqRecord JVal.null
  let messageBody := unwrapped.1
  let error := unwrapped.2
  if isEventBridgeEvent messageBody then
    let executionArn :=
      jsOr ((messageBody.get "detail").bind
        (fun d => d.get "executionArn")) .null
    let stateMachineArn :=
      jsOr ((messageBody.get "detail").bind
        (fun d => d.get "stateMachineArn")) .null
    let status :=
      jsOr ((messageBody.get "detail").bind (fun d => d.get "status")) .null
    let time := jsOr (messageBody.get "time") .null
    match resolver messageBody with
    | .ok cumulusMessage =>
      let providerId :=
        if isMessageWithProvider cumulusMessage then
          jsOr (getMessageProviderId cumulusMessage) .null
        else .null
      [("collectionId", extractCollectionId cumulusMessage),
       ("providerId", providerId),
       ("granules", extractGranules cumulusMessage),
       ("executionArn", executionArn),
       ("stateMachineArn", stateMachineArn),
       ("status", status),
       ("time", time),
       ("error", error)]
    | .error _ =>
      [("collectionId", JVal.null), ("providerId", JVal.null),
       ("granules", JVal.null),
       ("executionArn", executionArn),
       ("stateMachineArn", stateMachineArn),
       ("status", status),
       ("time", time),
       ("error", error)]
  else
    [("collectionId", JVal.null), ("providerId", JVal.null),
     ("granules", JVal.null), ("executionArn", JVal.null),
     ("stateMachineArn", JVal.null), ("status", JVal.null),
     ("time", JVal.null), ("error", error)]

/-- `hoistCumulusMessageDetails` from the source: unwrap, classify,
extract, then return `{...dlqRecord, collectionId, providerId, granules,
executionArn, stateMachineArn, status, time, error}`. -/
def hoistCumulusMessageDetails (resolver : JVal → Except String JVal)
    (dlqRecord : JVal) : JVal :=
  objSpread dlqRecord (hoistDetails resolver dlqRecord)

theorem hoistDetails_keys (resolver : JVal → Except String JVal)
    (dlqRecord : JVal) :
    (hoistDetails resolver dlqRecord).map Prod.fst = enrichmentKeys := by
  simp only [hoistDetails]
  split
  · split <;> rfl
  · rfl

theorem hoist_get_mem (resolver : JVal → Except String JVal)
    (dlqRecord : JVal) (key : String) (v : JVal)
    (h : (key, v) ∈ hoistDetails resolver dlqRecord) :
    (hoistCumulusMessageDetails resolver dlqRecord).get key = some v := by
  show lookupField ((hoistDetails resolver dlqRecord).foldl spreadStep
    (baseFields dlqRecord)) key = some v
  refine lookup_foldl_mem _ _ _ _ ?_ h
  rw [hoistDetails_keys]
  decide

theorem hoist_get_passthrough (resolver : JVal → Except String JVal)
    (fs : List (String × JVal)) (key : String)
    (h : key ∉ enrichmentKeys) :
    (hoistCumulusMessageDetails resolver (JVal.obj fs)).get key =
      (JVal.obj fs).get key := by
  show lookupField ((hoistDetails resolver (JVal.obj fs)).foldl spreadStep
    fs) key = lookupField fs key
  apply lookup_foldl_not_mem
  intro p hp hc
  apply h
  rw [← hoistDetails_keys resolver (JVal.obj fs), ← hc]
  exact List.mem_map_of_mem Prod.fst hp

/-- The handler's external collaborators, passed as explicit state: the
full-message resolver, the unique-token generator (indexed by the
per-invocation call count), the current processing date
(`moment.utc().format(..)`), the timestamp date formatter
(`moment.utc(time).format(..)`), and the serializer
(`JSON.stringify`). -/
structure HandlerCtx where
  resolver : JVal → Except String JVal
  uuid : Nat → String
  nowDate : String
  fmtDate : JVal → String
  stringify : JVal → String

/-- One object-store write request issued through `s3PutObject`. -/
structure PutRequest where
  bucket : String
  key : String
  body : String
deriving DecidableEq, Repr

/-- The handler's date component:
`massagedMessage.time ? moment.utc(massagedMessage.time).format(..) :
moment.utc().format(..)`. -/
def dlaDateString (ctx : HandlerCtx) (massagedMessage : JVal) : String :=
  match massagedMessage.get "time" with
  | some t => if t.truthy then ctx.fmtDate t else ctx.nowDate
  | none => ctx.nowDate

/-- The per-record body of the handler's `sqsMessages.map`: hoist when
queue-record-like (else pass the record through with a null execution),
then build the dated, uniquely suffixed storage key and the serialized
body. -/
def processRecord (ctx : HandlerCtx) (stackName bucket token : String)
    (sqsMessage : JVal) : PutRequest :=
  let pair :=
    if isSQSRecordLike sqsMessage then
      let massagedMessage := hoistCumulusMessageDetails ctx.resolver sqsMessage
      (massagedMessage, (massagedMessage.get "executionArn").getD JVal.null)
    else (sqsMessage, JVal.null)
  let executionName := if pair.2.truthy then pair.2.jsToString else "unknown"
  let s3Identifier := executionName ++ "-" ++ token
  let dateString := dlaDateString ctx pair.1
  { bucket := bucket,
    key := stackName ++ "/dead-letter-archive/sqs/" ++ dateString ++ "/"
      ++ s3Identifier ++ ".json",
    body := ctx.stringify pair.1 }

/-- The write requests of a batch, one per record, each with its own
fresh token (the token generator is consulted once per record). -/
def handlerRequestsFrom (ctx : HandlerCtx) (stackName bucket : String) :
    Nat → List JVal → List PutRequest
  | _, [] => []
  | i, r :: rest =>
    processRecord ctx stackName bucket (ctx.uuid i) r ::
      handlerRequestsFrom ctx stackName bucket (i + 1) rest

/-- All write requests of a batch. -/
def handlerRequests (ctx : HandlerCtx) (stackName bucket : String)
    (records : List JVal) : List PutRequest :=
  handlerRequestsFrom ctx stackName bucket 0 records

/-- `get(event, 'Records', [])` followed by `.map`: the records array
when present, the empty batch when the property is absent, and a raised
`TypeError` (`none`) when the property holds a non-array. -/
def getRecords (event : JVal) : Option (List JVal) :=
  match event.get "Records" with
  | some (.arr rs) => some rs
  | some _ => none
  | none => some []

/-- `Promise.all` over the settled write results: resolves exactly when
every write resolved, otherwise rejects. -/
def allOk : List (Except String Unit) → Except String Unit
  | [] => .ok ()
  | .ok () :: rest => allOk rest
  | .error e :: _ => .error e

/-- The lambda `handler` from the source: validate the environment,
enrich every record of the batch, write all of them, succeed only if
every write succeeded.  `system_bucket` and `stackName` model the
`process.env` values, with the empty string standing for an
unset/falsy variable; `put` models `s3PutObject`. -/
def handler (ctx : HandlerCtx) (put : PutRequest → Except String Unit)
    (system_bucket stackName : String) (event : JVal) :
    Except String Unit :=
  if system_bucket = "" then
    .error "System bucket env var is required."
  else if stackName = "" then
    .error "Could not determine archive path as stackName env var is undefined."
  else
    match getRecords event with
    | none => .error "TypeError: sqsMessages.map is not a function"
    | some records =>
      allOk ((handlerRequests ctx stackName system_bucket records).map put)

theorem allOk_eq_ok_iff (l : List (Except String Unit)) :
    allOk l = .ok () ↔ ∀ r ∈ l, r = .ok () := by
  induction l with
  | nil => simp [allOk]
  | cons r rest ih =>
    match r with
    | .ok () =>
      rw [allOk, ih]
      constructor
      · intro h x hx
        rcases List.mem_cons.mp hx with hx | hx
        · rw [hx]
        · exact h x hx
      · intro h x hx
        exact h x (List.mem_cons_of_mem _ hx)
    | .error e =>
      constructor
      · intro h
        exact absurd h (by simp [allOk])
      · intro h
        have := h (.error e) (List.mem_cons_self _ rest)
        simp at this

theorem handler_ok_iff (ctx : HandlerCtx)
    (put : PutRequest → Except String Unit)
    (system_bucket stackName : String) (event : JVal)
    (records : List JVal)
    (hsb : system_bucket ≠ "") (hst : stackName ≠ "")
    (hrec : getRecords event = some records) :
    (handler ctx put system_bucket stackName event = .ok () ↔
      ∀ req ∈ handlerRequests ctx stackName system_bucket records,
        put req = .ok ()) := by
  rw [handler, if_neg hsb, if_neg hst, hrec, allOk_eq_ok_iff]
  constructor
  · intro h req hreq
    exact h (put req) (List.mem_map_of_mem put hreq)
  · intro h r hr
    rcases List.mem_map.mp hr with ⟨req, hreq, hput⟩
    rw [← hput]
    exact h req hreq

theorem handlerRequestsFrom_getElem (ctx : HandlerCtx)
    (stackName bucket : String) :
    ∀ (rs : List JVal) (i j : Nat),
      (handlerRequestsFrom ctx stackName bucket i rs)[j]? =
        (rs[j]?).map
          (fun r => processRecord ctx stackName bucket (ctx.uuid (i + j)) r) := by
  intro rs
  induction rs with
  | nil => intro i j; simp [handlerRequestsFrom]
  | cons r rest ih =>
    intro i j
    match j with
    | 0 => simp [handlerRequestsFrom]
    | j + 1 =>
      rw [handlerRequestsFrom, List.getElem?_cons_succ,
        List.getElem?_cons_succ, ih (i + 1) j,
        show i + 1 + j = i + (j + 1) by omega]

theorem handlerRequests_getElem (ctx : HandlerCtx)
    (stackName bucket : String) (rs : List JVal) (j : Nat) :
    (handlerRequests ctx stackName bucket rs)[j]? =
      (rs[j]?).map
        (fun r => processRecord ctx stackName bucket (ctx.uuid j) r) := by
  rw [handlerRequests, handlerRequestsFrom_getElem]
  have : 0 + j = j := by omega
  rw [this]

/-- C1 (amended): for every input, the Envelope Unwrapper returns a
payload that no longer matches the queue-record-like predicate, and the
captured error is the normalized (`|| null`) `error` field of the
outermost layer whose `error` field is truthy — layers whose `error`
field is absent or falsy are passed over — and null when no layer
carries a truthy `error` field (in particular when no layer carries an
`error` field at all). -/
theorem unwrapper_error_capture (v : JVal) :
    isSQSRecordLike (hoistUnwrap v JVal.null).1 = false ∧
    (hoistUnwrap v JVal.null).2 = firstError (layersOf v) ∧
    ((∀ l ∈ layersOf v, l.get "error" = none) →
      (hoistUnwrap v JVal.null).2 = JVal.null) := by
  have h := unwrap_invariant (JVal.size v) v (le_refl _) JVal.null (Or.inl rfl)
  have htr : JVal.truthy JVal.null = false := rfl
  refine ⟨h.1, ?_, ?_⟩
  · rw [h.2, htr]
    simp
  · intro hne
    rw [h.2, htr]
    simp
    exact firstError_eq_null_of_no_error _ hne

/-- Inner layer of the C1 counterexample, carrying error `"boom"`. -/
def innerC1 : JVal := .obj [("body", .str "x"), ("error", .str "boom")]

/-- C1 counterexample input: the outermost layer carries an `error`
field holding the (falsy) empty string. -/
def dlqC1 : JVal := .obj [("body", innerC1), ("error", .str "")]

/-- C1 counterexample: both layers of `dlqC1` are queue-record-like and
the outermost layer carries an `error` field (the empty string), yet the
unwrap loop retains the inner layer's `"boom"`, not the outermost
layer's error — refuting "the captured error equals the `error` field of
the outermost layer that carries one". -/
theorem unwrapper_error_capture_counterexample :
    layersOf dlqC1 = [dlqC1, innerC1] ∧
    isDLQRecordLike dlqC1 = true ∧
    dlqC1.get "error" = some (JVal.str "") ∧
    (hoistUnwrap dlqC1 JVal.null).2 = JVal.str "boom" ∧
    JVal.str "boom" ≠ JVal.str "" := by
  refine ⟨rfl, rfl, rfl, rfl, ?_⟩
  intro h
  injection h with h₂
  exact absurd h₂ (by decide)

/-- Single-layer error-free record used by the C1 witness. -/
def wC1 : JVal := .obj [("body", .str "x")]

/-- C1 witness: the amended theorem evaluated on a concrete error-free
record, its inner implication discharged. -/
theorem unwrapper_error_capture_witness :
    isSQSRecordLike (hoistUnwrap wC1 JVal.null).1 = false ∧
    (hoistUnwrap wC1 JVal.null).2 = firstError (layersOf wC1) ∧
    (hoistUnwrap wC1 JVal.null).2 = JVal.null :=
  ⟨(unwrapper_error_capture wC1).1,
   (unwrapper_error_capture wC1).2.1,
   (unwrapper_error_capture wC1).2.2 (by
     intro l hl
     rw [show layersOf wC1 = [wC1] from rfl, List.mem_singleton] at hl
     rw [hl]
     rfl)⟩

/-- C10: on a queue-record-like record the enriched output carries all
eight enrichment fields; each of the eight resolves to the freshly
computed enrichment value (so a same-named original top-level field is
overwritten, its original value not preserved), while every other
original field passes through unchanged. -/
theorem hoist_enrichment_overwrite (resolver : JVal → Except String JVal)
    (dlqRecord : JVal) (h : isSQSRecordLike dlqRecord = true) :
    ((hoistDetails resolver dlqRecord).map Prod.fst = enrichmentKeys) ∧
    (∀ key, key ∈ enrichmentKeys →
      ((hoistCumulusMessageDetails resolver dlqRecord).get key).isSome
        = true) ∧
    (∀ key v, (key, v) ∈ hoistDetails resolver dlqRecord →
      (hoistCumulusMessageDetails resolver dlqRecord).get key = some v) ∧
    (∀ key, key ∉ enrichmentKeys →
      (hoistCumulusMessageDetails resolver dlqRecord).get key =
        dlqRecord.get key) := by
  refine ⟨hoistDetails_keys resolver dlqRecord, ?_, hoist_get_mem resolver
    dlqRecord, ?_⟩
  · intro key hk
    rw [← hoistDetails_keys resolver dlqRecord] at hk
    rcases List.mem_map.mp hk with ⟨p, hp, hfst⟩
    have : (hoistCumulusMessageDetails resolver dlqRecord).get key
        = some p.2 := by
      apply hoist_get_mem
      rw [← hfst]
      exact hp
    rw [this]
    rfl
  · intro key hk
    cases hdq : dlqRecord with
    | obj fs => exact hoist_get_passthrough resolver fs key hk
    | null => rw [hdq] at h; exact absurd h (by simp [isSQSRecordLike])
    | bool b => rw [hdq] at h; exact absurd h (by simp [isSQSRecordLike])
    | num n => rw [hdq] at h; exact absurd h (by simp [isSQSRecordLike])
    | str s => rw [hdq] at h; exact absurd h (by simp [isSQSRecordLike])
    | arr xs => rw [hdq] at h; exact absurd h (by simp [isSQSRecordLike])

/-- A full-message resolver that always fails, used by witnesses. -/
def noResolver : JVal → Except String JVal :=
  fun _ => .error "execution history unavailable"

/-- C10 witness record: queue-record-like, with an original top-level
`status` field (to be overwritten) and a `custom` field (to pass
through). -/
def dlqW10 : JVal :=
  .obj [("body", .str "b"), ("status", .str "orig"), ("custom", .num 7)]

/-- C10 witness: the theorem instantiated on `dlqW10`, plus the concrete
overwrite it implies: the original `status` value is replaced by the
enrichment value null while `custom` is preserved. -/
theorem hoist_enrichment_overwrite_witness :
    isSQSRecordLike dlqW10 = true ∧
    (((hoistDetails noResolver dlqW10).map Prod.fst = enrichmentKeys) ∧
     (∀ key, key ∈ enrichmentKeys →
       ((hoistCumulusMessageDetails noResolver dlqW10).get key).isSome
         = true) ∧
     (∀ key v, (key, v) ∈ hoistDetails noResolver dlqW10 →
       (hoistCumulusMessageDetails noResolver dlqW10).get key = some v) ∧
     (∀ key, key ∉ enrichmentKeys →
       (hoistCumulusMessageDetails noResolver dlqW10).get key =
         dlqW10.get key)) ∧
    (hoistCumulusMessageDetails noResolver dlqW10).get "status"
      = some JVal.null ∧
    (hoistCumulusMessageDetails noResolver dlqW10).get "custom"
      = some (JVal.num 7) :=
  ⟨rfl, hoist_enrichment_overwrite noResolver dlqW10 rfl, rfl, rfl⟩

theorem hoistDetails_of_classifier_miss
    (resolver : JVal → Except String JVal) (dlqRecord : JVal)
    (h : isEventBridgeEvent (hoistUnwrap dlqRecord JVal.null).1 = false) :
    hoistDetails resolver dlqRecord =
      [("collectionId", JVal.null), ("providerId", JVal.null),
       ("granules", JVal.null), ("executionArn", JVal.null),
       ("stateMachineArn", JVal.null), ("status", JVal.null),
       ("time", JVal.null),
       ("error", (hoistUnwrap dlqRecord JVal.null).2)] := by
  simp only [hoistDetails]
  split
  · next hcond => rw [h] at hcond; exact absurd hcond (by simp)
  · rfl

/-- C2: when the unwrapped payload is not execution-event shaped, the
enriched record's `executionArn`, `stateMachineArn`, `status` and `time`
are all null, the full-message resolver is never consulted (the result
does not depend on it), and a batch holding such a record still archives
it successfully rather than failing. -/
theorem classifier_miss_enrichment (ctx : HandlerCtx)
    (resolver₂ : JVal → Except String JVal) (dlqRecord : JVal)
    (system_bucket stackName : String)
    (h : isEventBridgeEvent (hoistUnwrap dlqRecord JVal.null).1 = false)
    (hsb : system_bucket ≠ "") (hst : stackName ≠ "") :
    (hoistCumulusMessageDetails ctx.resolver dlqRecord).get "executionArn"
      = some JVal.null ∧
    (hoistCumulusMessageDetails ctx.resolver dlqRecord).get
      "stateMachineArn" = some JVal.null ∧
    (hoistCumulusMessageDetails ctx.resolver dlqRecord).get "status"
      = some JVal.null ∧
    (hoistCumulusMessageDetails ctx.resolver dlqRecord).get "time"
      = some JVal.null ∧
    hoistCumulusMessageDetails ctx.resolver dlqRecord =
      hoistCumulusMessageDetails resolver₂ dlqRecord ∧
    handler ctx (fun _ => .ok ()) system_bucket stackName
      (JVal.obj [("Records", JVal.arr [dlqRecord])]) = .ok () := by
  have hd := hoistDetails_of_classifier_miss ctx.resolver dlqRecord h
  have hd₂ := hoistDetails_of_classifier_miss resolver₂ dlqRecord h
  refine ⟨?_, ?_, ?_, ?_, ?_, ?_⟩
  · apply hoist_get_mem
    rw [hd]
    simp
  · apply hoist_get_mem
    rw [hd]
    simp
  · apply hoist_get_mem
    rw [hd]
    simp
  · apply hoist_get_mem
    rw [hd]
    simp
  · rw [hoistCumulusMessageDetails, hoistCumulusMessageDetails, hd, hd₂]
  · rw [handler_ok_iff ctx (fun _ => .ok ()) system_bucket stackName
      (JVal.obj [("Records", JVal.arr [dlqRecord])]) [dlqRecord]
      hsb hst rfl]
    intro req hreq
    rfl

/-- C2 witness record: its body is a plain string, so the unwrapped
payload is not execution-event shaped. -/
def dlqW2 : JVal := .obj [("body", .str "not an event")]

/-- C2 witness: the theorem instantiated on `dlqW2` with two different
resolvers, all hypotheses discharged. -/
theorem classifier_miss_enrichment_witness :
    isEventBridgeEvent (hoistUnwrap dlqW2 JVal.null).1 = false ∧
    (("bk" : String) ≠ "") ∧ (("st" : String) ≠ "") ∧
    ((hoistCumulusMessageDetails noResolver dlqW2).get "executionArn"
       = some JVal.null ∧
     (hoistCumulusMessageDetails noResolver dlqW2).get "stateMachineArn"
       = some JVal.null ∧
     (hoistCumulusMessageDetails noResolver dlqW2).get "status"
       = some JVal.null ∧
     (hoistCumulusMessageDetails noResolver dlqW2).get "time"
       = some JVal.null ∧
     hoistCumulusMessageDetails noResolver dlqW2 =
       hoistCumulusMessageDetails (fun v => .ok v) dlqW2 ∧
     handler { resolver := noResolver, uuid := fun _ => "u",
               nowDate := "2026-10-11", fmtDate := fun _ => "2026-10-11",
               stringify := fun _ => "doc" }
         (fun _ => .ok ()) "bk" "st"
         (JVal.obj [("Records", JVal.arr [dlqW2])]) = .ok ()) :=
  ⟨rfl, by decide, by decide,
   classifier_miss_enrichment
     { resolver := noResolver, uuid := fun _ => "u",
       nowDate := "2026-10-11", fmtDate := fun _ => "2026-10-11",
       stringify := fun _ => "doc" }
     (fun v => .ok v) dlqW2 "bk" "st" rfl (by decide) (by decide)⟩

theorem hoistDetails_of_resolver_failure
    (resolver : JVal → Except String JVal) (dlqRecord : JVal) (e : String)
    (hclass : isEventBridgeEvent (hoistUnwrap dlqRecord JVal.null).1 = true)
    (hfail : resolver (hoistUnwrap dlqRecord JVal.null).1 = .error e) :
    hoistDetails resolver dlqRecord =
      [("collectionId", JVal.null), ("providerId", JVal.null),
       ("granules", JVal.null),
       ("executionArn",
         jsOr (((hoistUnwrap dlqRecord JVal.null).1.get "detail").bind
           (fun d => d.get "executionArn")) JVal.null),
       ("stateMachineArn",
         jsOr (((hoistUnwrap dlqRecord JVal.null).1.get "detail").bind
           (fun d => d.get "stateMachineArn")) JVal.null),
       ("status",
         jsOr (((hoistUnwrap dlqRecord JVal.null).1.get "detail").bind
           (fun d => d.get "status")) JVal.null),
       ("time", jsOr ((hoistUnwrap dlqRecord JVal.null).1.get "time")
         JVal.null),
       ("error", (hoistUnwrap dlqRecord JVal.null).2)] := by
  simp only [hoistDetails]
  split
  · rw [hfail]
  · next hcond => exact absurd hclass hcond

/-- C3: when the payload classifies as an execution event but the
full-message resolver fails on it, the failure is contained:
`collectionId`, `granules` and `providerId` stay null, and a batch
holding the record still archives it successfully — the resolver failure
does not propagate out of the per-record pipeline. -/
theorem resolver_failure_recovered (ctx : HandlerCtx) (dlqRecord : JVal)
    (e : String) (system_bucket stackName : String)
    (hclass : isEventBridgeEvent (hoistUnwrap dlqRecord JVal.null).1 = true)
    (hfail : ctx.resolver (hoistUnwrap dlqRecord JVal.null).1 = .error e)
    (hsb : system_bucket ≠ "") (hst : stackName ≠ "") :
    (hoistCumulusMessageDetails ctx.resolver dlqRecord).get "collectionId"
      = some JVal.null ∧
    (hoistCumulusMessageDetails ctx.resolver dlqRecord).get "granules"
      = some JVal.null ∧
    (hoistCumulusMessageDetails ctx.resolver dlqRecord).get "providerId"
      = some JVal.null ∧
    handler ctx (fun _ => .ok ()) system_bucket stackName
      (JVal.obj [("Records", JVal.arr [dlqRecord])]) = .ok () := by
  have hd := hoistDetails_of_resolver_failure ctx.resolver dlqRecord e
    hclass hfail
  refine ⟨?_, ?_, ?_, ?_⟩
  · apply hoist_get_mem
    rw [hd]
    simp
  · apply hoist_get_mem
    rw [hd]
    simp
  · apply hoist_get_mem
    rw [hd]
    simp
  · rw [handler_ok_iff ctx (fun _ => .ok ()) system_bucket stackName
      (JVal.obj [("Records", JVal.arr [dlqRecord])]) [dlqRecord]
      hsb hst rfl]
    intro req hreq
    rfl

/-- C3 witness record: wraps a well-formed execution event. -/
def dlqW3 : JVal :=
  .obj [("body", .obj [("detail", .obj [("executionArn", .str "arn:1")]),
                       ("time", .str "2024-01-01T00:00:00Z")])]

/-- The handler collaborators used by the C3 witness (resolver always
fails). -/
def ctxW3 : HandlerCtx :=
  { resolver := noResolver, uuid := fun _ => "u",
    nowDate := "2026-10-11", fmtDate := fun _ => "2024-01-01",
    stringify := fun _ => "doc" }

/-- C3 witness: the theorem instantiated on `dlqW3` with the failing
resolver, all hypotheses discharged. -/
theorem resolver_failure_recovered_witness :
    isEventBridgeEvent (hoistUnwrap dlqW3 JVal.null).1 = true ∧
    ctxW3.resolver (hoistUnwrap dlqW3 JVal.null).1 =
      .error "execution history unavailable" ∧
    ((hoistCumulusMessageDetails ctxW3.resolver dlqW3).get "collectionId"
       = some JVal.null ∧
     (hoistCumulusMessageDetails ctxW3.resolver dlqW3).get "granules"
       = some JVal.null ∧
     (hoistCumulusMessageDetails ctxW3.resolver dlqW3).get "providerId"
       = some JVal.null ∧
     handler ctxW3 (fun _ => .ok ()) "bk" "st"
       (JVal.obj [("Records", JVal.arr [dlqW3])]) = .ok ()) :=
  ⟨rfl, rfl,
   resolver_failure_recovered ctxW3 dlqW3 "execution history unavailable"
     "bk" "st" rfl rfl (by decide) (by decide)⟩

/-- C5 (amended): when the resolved message's payload carries a
`granules` array, `extractGranules` maps each element to its `granuleId`
attribute when that attribute is truthy, substituting null for any
element whose `granuleId` is absent or falsy; when the payload has no
`granules` array the result is null, never the empty list. -/
theorem extract_granules_amended (message : JVal) :
    (∀ fs gs, message.get "payload" = some (JVal.obj fs) →
      lookupField fs "granules" = some (JVal.arr gs) →
      extractGranules message =
        JVal.arr (gs.map (fun g => jsOr (g.get "granuleId") JVal.null))) ∧
    (payloadHasGranules (message.get "payload") = false →
      extractGranules message = JVal.null ∧
      extractGranules message ≠ JVal.arr []) := by
  constructor
  · intro fs gs hp hg
    rw [extractGranules.eq_def, hp]
    dsimp only
    rw [hg]
  · intro h
    rw [extractGranules.eq_def]
    rcases hp : message.get "payload" with _ | p
    · exact ⟨rfl, fun hc => JVal.noConfusion hc⟩
    · rw [hp] at h
      cases p with
      | obj fs =>
        rw [payloadHasGranules.eq_def] at h
        dsimp only at h ⊢
        rcases hg : lookupField fs "granules" with _ | g
        · exact ⟨rfl, fun hc => JVal.noConfusion hc⟩
        · rw [hg] at h
          cases g with
          | arr gs => simp at h
          | null => exact ⟨rfl, fun hc => JVal.noConfusion hc⟩
          | bool b => exact ⟨rfl, fun hc => JVal.noConfusion hc⟩
          | num n => exact ⟨rfl, fun hc => JVal.noConfusion hc⟩
          | str s => exact ⟨rfl, fun hc => JVal.noConfusion hc⟩
          | obj fs₂ => exact ⟨rfl, fun hc => JVal.noConfusion hc⟩
      | null => exact ⟨rfl, fun hc => JVal.noConfusion hc⟩
      | bool b => exact ⟨rfl, fun hc => JVal.noConfusion hc⟩
      | num n => exact ⟨rfl, fun hc => JVal.noConfusion hc⟩
      | str s => exact ⟨rfl, fun hc => JVal.noConfusion hc⟩
      | arr xs => exact ⟨rfl, fun hc => JVal.noConfusion hc⟩

/-- C5 counterexample granule: it carries a `granuleId` attribute whose
value is the (falsy) empty string. -/
def granC5 : JVal := .obj [("granuleId", .str "")]

/-- C5 counterexample message. -/
def msgC5 : JVal :=
  .obj [("payload", .obj [("granules", .arr [granC5])])]

/-- C5 counterexample: the element has a `granuleId` attribute (the
empty string), yet `extractGranules` substitutes null instead of mapping
the element to that attribute — refuting "maps each element to its
granuleId attribute, substituting null for any element lacking one". -/
theorem extract_granules_counterexample :
    granC5.get "granuleId" = some (JVal.str "") ∧
    extractGranules msgC5 = JVal.arr [JVal.null] ∧
    JVal.arr [JVal.null] ≠ JVal.arr [JVal.str ""] := by
  refine ⟨rfl, rfl, ?_⟩
  intro h
  injection h with h₂
  injection h₂ with h₃ h₄
  exact JVal.noConfusion h₃

/-- C5 witness message: the spec's own example payload
`[{granuleId:"G1"}, {}]`. -/
def msgW5 : JVal :=
  .obj [("payload", .obj [("granules",
    .arr [.obj [("granuleId", .str "G1")], .obj []])])]

/-- C5 witness message with a payload that has no `granules` array. -/
def msgW5n : JVal := .obj [("payload", .obj [("other", .num 1)])]

/-- C5 witness: the amended theorem evaluated on the spec's example and
on a granule-free payload, hypotheses discharged. -/
theorem extract_granules_amended_witness :
    extractGranules msgW5 = JVal.arr [JVal.str "G1", JVal.null] ∧
    (extractGranules msgW5n = JVal.null ∧
     extractGranules msgW5n ≠ JVal.arr []) :=
  ⟨(extract_granules_amended msgW5).1 _ _ rfl rfl,
   (extract_granules_amended msgW5n).2 rfl⟩

/-- C6 (amended): the composite collection identifier (the system-wide
`name___version` composer applied to the stringified name and version)
is produced exactly when both `meta.collection.name` and
`meta.collection.version` are present *and truthy*; otherwise (either
absent or falsy, e.g. the empty string) the result is null. -/
theorem extract_collection_id_amended (message : JVal) :
    (∀ name version,
      ((message.get "meta").bind (fun x => x.get "collection")).bind
        (fun x => x.get "name") = some name →
      ((message.get "meta").bind (fun x => x.get "collection")).bind
        (fun x => x.get "version") = some version →
      name.truthy = true → version.truthy = true →
      extractCollectionId message =
        JVal.str (constructCollectionId name.jsToString
          version.jsToString)) ∧
    (((jsOr (((message.get "meta").bind (fun x => x.get "collection")).bind
        (fun x => x.get "name")) JVal.null).truthy = false ∨
      (jsOr (((message.get "meta").bind (fun x => x.get "collection")).bind
        (fun x => x.get "version")) JVal.null).truthy = false) →
      extractCollectionId message = JVal.null) ∧
    (extractCollectionId message = JVal.null ∨
      ((jsOr (((message.get "meta").bind (fun x => x.get "collection")).bind
          (fun x => x.get "name")) JVal.null).truthy = true ∧
       (jsOr (((message.get "meta").bind (fun x => x.get "collection")).bind
          (fun x => x.get "version")) JVal.null).truthy = true)) := by
  refine ⟨?_, ?_, ?_⟩
  · intro name version hn hv htn htv
    rw [extractCollectionId, hn, hv]
    have hjn : jsOr (some name) JVal.null = name := by
      rw [jsOr, if_pos htn]
    have hjv : jsOr (some version) JVal.null = version := by
      rw [jsOr, if_pos htv]
    rw [hjn, hjv, htn, htv]
    rfl
  · intro h
    rw [extractCollectionId]
    rcases h with h | h
    · rw [h]
      simp
    · rw [h]
      simp
  · rw [extractCollectionId]
    by_cases hn : (jsOr (((message.get "meta").bind
        (fun x => x.get "collection")).bind (fun x => x.get "name"))
        JVal.null).truthy = true
    · by_cases hv : (jsOr (((message.get "meta").bind
          (fun x => x.get "collection")).bind (fun x => x.get "version"))
          JVal.null).truthy = true
      · exact Or.inr ⟨hn, hv⟩
      · left
        rw [eq_false_of_ne_true hv]
        simp
    · left
      rw [eq_false_of_ne_true hn]
      simp

/-- C6 counterexample message: both `meta.collection.name` and
`meta.collection.version` are present, but the name is the (falsy)
empty string. -/
def msgC6 : JVal :=
  .obj [("meta", .obj [("collection",
    .obj [("name", .str ""), ("version", .str "006")])])]

/-- C6 counterexample: name and version are both present, yet
`extractCollectionId` returns null rather than the composite — refuting
"returns the composite identifier ... if and only if both name and
version are present". -/
theorem extract_collection_id_counterexample :
    ((msgC6.get "meta").bind (fun x => x.get "collection")).bind
      (fun x => x.get "name") = some (JVal.str "") ∧
    ((msgC6.get "meta").bind (fun x => x.get "collection")).bind
      (fun x => x.get "version") = some (JVal.str "006") ∧
    extractCollectionId msgC6 = JVal.null ∧
    JVal.null ≠ JVal.str (constructCollectionId "" "006") := by
  refine ⟨rfl, rfl, rfl, ?_⟩
  intro h
  exact JVal.noConfusion h

/-- C6 witness message: the spec's example, collection MOD09 version
006. -/
def msgW6 : JVal :=
  .obj [("meta", .obj [("collection",
    .obj [("name", .str "MOD09"), ("version", .str "006")])])]

/-- C6 witness: the amended theorem evaluated on `msgW6`, hypotheses
discharged, yielding the system-wide composite `MOD09___006`. -/
theorem extract_collection_id_amended_witness :
    extractCollectionId msgW6 = JVal.str "MOD09___006" :=
  (extract_collection_id_amended msgW6).1 (JVal.str "MOD09")
    (JVal.str "006") rfl rfl rfl rfl

/-- C4: a batch fails as a whole exactly when some record's object-store
write fails: one failed write rejects the invocation even when every
other write succeeded, and when every write succeeds the handler
resolves with no return value. -/
theorem handler_write_failure_policy (ctx : HandlerCtx)
    (put : PutRequest → Except String Unit)
    (system_bucket stackName : String) (event : JVal)
    (records : List JVal)
    (hsb : system_bucket ≠ "") (hst : stackName ≠ "")
    (hrec : event.get "Records" = some (JVal.arr records)) :
    ((∃ req ∈ handlerRequests ctx stackName system_bucket records,
        put req ≠ .ok ()) →
      handler ctx put system_bucket stackName event ≠ .ok ()) ∧
    ((∀ req ∈ handlerRequests ctx stackName system_bucket records,
        put req = .ok ()) →
      handler ctx put system_bucket stackName event = .ok ()) := by
  have hr : getRecords event = some records := by
    rw [getRecords.eq_def, hrec]
  have hiff := handler_ok_iff ctx put system_bucket stackName event
    records hsb hst hr
  constructor
  · rintro ⟨req, hreq, hput⟩ hok
    exact hput ((hiff.mp hok) req hreq)
  · exact hiff.mpr

/-- Handler collaborators shared by several witnesses. -/
def ctxW : HandlerCtx :=
  { resolver := noResolver, uuid := fun n => toString n,
    nowDate := "2026-10-11", fmtDate := fun _ => "2024-01-01",
    stringify := fun _ => "doc" }

/-- C4 witness event: a batch of two records. -/
def eventW4 : JVal :=
  .obj [("Records", .arr [.obj [("body", .str "a")], .str "opaque"])]

/-- C4 witness: the theorem instantiated on a concrete two-record batch
with an always-succeeding writer, hypotheses discharged. -/
theorem handler_write_failure_policy_witness :
    (("bk" : String) ≠ "") ∧ (("st" : String) ≠ "") ∧
    eventW4.get "Records" =
      some (JVal.arr [.obj [("body", .str "a")], .str "opaque"]) ∧
    (((∃ req ∈ handlerRequests ctxW "st" "bk"
          [.obj [("body", .str "a")], .str "opaque"],
        (fun _ => (.ok () : Except String Unit)) req ≠ .ok ()) →
      handler ctxW (fun _ => .ok ()) "bk" "st" eventW4 ≠ .ok ()) ∧
     ((∀ req ∈ handlerRequests ctxW "st" "bk"
          [.obj [("body", .str "a")], .str "opaque"],
        (fun _ => (.ok () : Except String Unit)) req = .ok ()) →
      handler ctxW (fun _ => .ok ()) "bk" "st" eventW4 = .ok ())) :=
  ⟨by decide, by decide, rfl,
   handler_write_failure_policy ctxW (fun _ => .ok ()) "bk" "st" eventW4
     [.obj [("body", .str "a")], .str "opaque"]
     (by decide) (by decide) rfl⟩

/-- The massaged message the handler archives for a record: the hoisted
enrichment when the record is queue-record-like, the record itself
otherwise. -/
def massagedOf (ctx : HandlerCtx) (sqsMessage : JVal) : JVal :=
  if isSQSRecordLike sqsMessage then
    hoistCumulusMessageDetails ctx.resolver sqsMessage
  else sqsMessage

/-- The execution value the handler reads back from the massaged
message (`massagedMessage.executionArn`, null for an opaque record). -/
def executionOf (ctx : HandlerCtx) (sqsMessage : JVal) : JVal :=
  if isSQSRecordLike sqsMessage then
    ((hoistCumulusMessageDetails ctx.resolver sqsMessage).get
      "executionArn").getD JVal.null
  else JVal.null

/-- `execution || 'unknown'`, stringified into the key. -/
def executionNameOf (ctx : HandlerCtx) (sqsMessage : JVal) : String :=
  if (executionOf ctx sqsMessage).truthy then
    (executionOf ctx sqsMessage).jsToString
  else "unknown"

theorem processRecord_eq (ctx : HandlerCtx)
    (stackName bucket token : String) (r : JVal) :
    processRecord ctx stackName bucket token r =
      { bucket := bucket,
        key := stackName ++ "/dead-letter-archive/sqs/"
          ++ dlaDateString ctx (massagedOf ctx r) ++ "/"
          ++ (executionNameOf ctx r ++ "-" ++ token) ++ ".json",
        body := ctx.stringify (massagedOf ctx r) } := by
  by_cases h : isSQSRecordLike r = true
  · simp only [processRecord, massagedOf, executionOf, executionNameOf,
      if_pos h]
  · simp only [processRecord, massagedOf, executionOf, executionNameOf,
      if_neg h]

/-- C7 (amended): every storage key has the shape
`<stackName>/dead-letter-archive/sqs/<date>/<executionArn-or-"unknown">-<token>.json`,
where the date component is the formatted time of the archived record
when its `time` field is present *and truthy*, and the current
processing date otherwise (a falsy `time`, e.g. `0` or the empty string,
falls back to the current date even though it is present), and the
execution component is the literal `"unknown"` whenever no truthy
execution identifier was resolved. -/
theorem storage_key_shape (ctx : HandlerCtx)
    (stackName bucket token : String) (r : JVal) :
    (processRecord ctx stackName bucket token r).key =
      stackName ++ "/dead-letter-archive/sqs/"
        ++ dlaDateString ctx (massagedOf ctx r) ++ "/"
        ++ (executionNameOf ctx r ++ "-" ++ token) ++ ".json" ∧
    (∀ t, (massagedOf ctx r).get "time" = some t → t.truthy = true →
      dlaDateString ctx (massagedOf ctx r) = ctx.fmtDate t) ∧
    (∀ t, (massagedOf ctx r).get "time" = some t → t.truthy = false →
      dlaDateString ctx (massagedOf ctx r) = ctx.nowDate) ∧
    ((massagedOf ctx r).get "time" = none →
      dlaDateString ctx (massagedOf ctx r) = ctx.nowDate) ∧
    ((executionOf ctx r).truthy = false →
      executionNameOf ctx r = "unknown") := by
  refine ⟨?_, ?_, ?_, ?_, ?_⟩
  · rw [processRecord_eq]
  · intro t ht htr
    rw [dlaDateString.eq_def, ht]
    dsimp only
    rw [htr]
    simp
  · intro t ht htr
    rw [dlaDateString.eq_def, ht]
    dsimp only
    rw [htr]
    simp
  · intro ht
    rw [dlaDateString.eq_def, ht]
  · intro hf
    rw [executionNameOf, if_neg]
    rw [hf]
    simp

/-- C7 counterexample collaborators: the formatter maps the epoch
timestamp `0` to its UTC calendar date. -/
def ctxC7 : HandlerCtx :=
  { resolver := noResolver, uuid := fun _ => "tok",
    nowDate := "2026-10-11", fmtDate := fun _ => "1970-01-01",
    stringify := fun _ => "doc" }

/-- C7 counterexample record: opaque (not queue-record-like) with a
present but falsy `time` of `0` (the epoch, a perfectly valid
timestamp). -/
def recC7 : JVal := .obj [("time", .num 0)]

/-- C7 counterexample: the archived record's `time` is present (`0`,
whose UTC calendar date the formatter renders as 1970-01-01), yet the
key's date component is the current processing date — refuting "the date
component is the UTC calendar date of the record's resolved time when
present". -/
theorem storage_key_shape_counterexample :
    isSQSRecordLike recC7 = false ∧
    recC7.get "time" = some (JVal.num 0) ∧
    ctxC7.fmtDate (JVal.num 0) = "1970-01-01" ∧
    (processRecord ctxC7 "st" "bk" "tok" recC7).key =
      "st/dead-letter-archive/sqs/2026-10-11/unknown-tok.json" ∧
    ("2026-10-11" : String) ≠ "1970-01-01" := by
  refine ⟨rfl, rfl, rfl, rfl, by decide⟩

/-- C7 witness record: an opaque record with a truthy timestamp. -/
def recW7 : JVal := .obj [("time", .str "2024-05-05T00:00:00Z")]

/-- C7 witness: the amended theorem applied at a concrete record,
discharging the truthy-time hypothesis: the date component is the
formatted resolved time. -/
theorem storage_key_shape_witness :
    (massagedOf ctxW recW7).get "time" =
      some (JVal.str "2024-05-05T00:00:00Z") ∧
    (JVal.str "2024-05-05T00:00:00Z").truthy = true ∧
    dlaDateString ctxW (massagedOf ctxW recW7) =
      ctxW.fmtDate (JVal.str "2024-05-05T00:00:00Z") :=
  ⟨rfl, rfl,
   (storage_key_shape ctxW "st" "bk" "tok" recW7).2.1 _ rfl rfl⟩

/-- C9: a record that is not queue-record-like is archived unmodified —
the massaged message is the input record itself, the persisted document
is its serialization with no enrichment fields added, and the key's
execution component is the literal `"unknown"`. -/
theorem opaque_record_archived_unmodified (ctx : HandlerCtx)
    (stackName bucket token : String) (r : JVal)
    (h : isSQSRecordLike r = false) :
    massagedOf ctx r = r ∧
    processRecord ctx stackName bucket token r =
      { bucket := bucket,
        key := stackName ++ "/dead-letter-archive/sqs/"
          ++ dlaDateString ctx r ++ "/" ++ ("unknown" ++ "-" ++ token)
          ++ ".json",
        body := ctx.stringify r } := by
  have hng : ¬ isSQSRecordLike r = true := by
    rw [h]
    simp
  have hm : massagedOf ctx r = r := by
    rw [massagedOf, if_neg hng]
  have he : executionNameOf ctx r = "unknown" := by
    rw [executionNameOf, executionOf, if_neg hng]
    rw [if_neg]
    intro hc
    exact absurd hc (by decide)
  refine ⟨hm, ?_⟩
  rw [processRecord_eq, hm, he]

/-- C9 witness: the theorem evaluated on a concrete opaque record. -/
theorem opaque_record_archived_unmodified_witness :
    isSQSRecordLike (JVal.str "opaque") = false ∧
    (massagedOf ctxW (JVal.str "opaque") = JVal.str "opaque" ∧
     processRecord ctxW "st" "bk" "tok" (JVal.str "opaque") =
       { bucket := "bk",
         key := "st" ++ "/dead-letter-archive/sqs/"
           ++ dlaDateString ctxW (JVal.str "opaque") ++ "/"
           ++ ("unknown" ++ "-" ++ "tok") ++ ".json",
         body := ctxW.stringify (JVal.str "opaque") }) :=
  ⟨rfl,
   opaque_record_archived_unmodified ctxW "st" "bk" "tok"
     (JVal.str "opaque") rfl⟩

theorem strData_append (a b : String) : (a ++ b).data = a.data ++ b.data :=
  rfl

/-- Everything of a storage key before the unique token. -/
def keyHead (ctx : HandlerCtx) (stackName : String) (r : JVal) : String :=
  stackName ++ "/dead-letter-archive/sqs/"
    ++ dlaDateString ctx (massagedOf ctx r) ++ "/"
    ++ executionNameOf ctx r ++ "-"

theorem key_decomp (ctx : HandlerCtx) (stackName bucket token : String)
    (r : JVal) :
    (processRecord ctx stackName bucket token r).key =
      keyHead ctx stackName r ++ token ++ ".json" := by
  rw [processRecord_eq]
  apply String.ext
  simp only [keyHead, strData_append, List.append_assoc]

/-- C8 (amended): two write requests of the same invocation carry
distinct storage keys whenever their fresh tokens are distinct and
additionally either (a) the two tokens have the same length (as actual
UUID v4 tokens always do), or (b) the two records are the same value
(in particular: identical content).  Distinctness of the tokens alone
does not suffice for records with different content (see the
counterexample). -/
theorem storage_keys_distinct (ctx : HandlerCtx)
    (stackName bucket : String) (rs : List JVal) (i j : Nat)
    (a b : PutRequest)
    (ha : (handlerRequests ctx stackName bucket rs)[i]? = some a)
    (hb : (handlerRequests ctx stackName bucket rs)[j]? = some b)
    (hd : ctx.uuid i ≠ ctx.uuid j)
    (hshape : (ctx.uuid i).length = (ctx.uuid j).length ∨
      rs[i]? = rs[j]?) :
    a.key ≠ b.key := by
  rw [handlerRequests_getElem] at ha hb
  rcases hri : rs[i]? with _ | ri
  · rw [hri] at ha
    exact absurd ha (by simp)
  rcases hrj : rs[j]? with _ | rj
  · rw [hrj] at hb
    exact absurd hb (by simp)
  rw [hri] at ha
  rw [hrj] at hb
  have haa : a = processRecord ctx stackName bucket (ctx.uuid i) ri := by
    have : some (processRecord ctx stackName bucket (ctx.uuid i) ri)
        = some a := ha
    injection this with h₂
    exact h₂.symm
  have hbb : b = processRecord ctx stackName bucket (ctx.uuid j) rj := by
    have : some (processRecord ctx stackName bucket (ctx.uuid j) rj)
        = some b := hb
    injection this with h₂
    exact h₂.symm
  intro hk
  rw [haa, hbb, key_decomp, key_decomp] at hk
  have hkd := congrArg String.data hk
  rw [strData_append, strData_append, strData_append, strData_append]
    at hkd
  have h₁ : (keyHead ctx stackName ri).data ++ (ctx.uuid i).data =
      (keyHead ctx stackName rj).data ++ (ctx.uuid j).data :=
    List.append_cancel_right hkd
  rcases hshape with hlen | heq
  · have hlen₂ : (ctx.uuid i).data.length = (ctx.uuid j).data.length :=
      hlen
    exact hd (String.ext (List.append_inj' h₁ hlen₂).2)
  · have hrr : ri = rj := by
      rw [hri, hrj] at heq
      injection heq
    rw [hrr] at h₁
    exact hd (String.ext (List.append_cancel_left h₁))

/-- C8 counterexample token generator: distinct on the two calls made,
but the tokens have different lengths and hyphens that realign. -/
def uuidC8 : Nat → String := fun n => if n = 0 then "x-y" else "y"

/-- C8 counterexample collaborators. -/
def ctxC8 : HandlerCtx :=
  { resolver := noResolver, uuid := uuidC8, nowDate := "D",
    fmtDate := fun _ => "D", stringify := fun _ => "doc" }

/-- C8 counterexample, first record: opaque, so its execution component
is `"unknown"`. -/
def recC8a : JVal := .obj [("note", .str "opaque record")]

/-- C8 counterexample, second record: enriches to the execution
identifier `"unknown-x"` (its falsy `time` keeps the date at the
processing date). -/
def recC8b : JVal :=
  .obj [("body", .obj [("detail",
    .obj [("executionArn", .str "unknown-x")]), ("time", .str "")])]

/-- C8 counterexample: the token generator returns a distinct token on
each of the two calls of the invocation, yet the two records' storage
keys coincide — refuting key distinctness under the claim's assumption
alone (token uniqueness without uniform token shape). -/
theorem storage_keys_distinct_counterexample :
    ctxC8.uuid 0 ≠ ctxC8.uuid 1 ∧
    (handlerRequests ctxC8 "st" "bk" [recC8a, recC8b]).map
        PutRequest.key =
      ["st/dead-letter-archive/sqs/D/unknown-x-y.json",
       "st/dead-letter-archive/sqs/D/unknown-x-y.json"] := by
  refine ⟨by decide, rfl⟩

/-- C8 witness token generator: distinct equal-length tokens. -/
def uuidW8 : Nat → String := fun n => if n = 0 then "aa" else "bb"

/-- C8 witness collaborators. -/
def ctxW8 : HandlerCtx :=
  { resolver := noResolver, uuid := uuidW8, nowDate := "D",
    fmtDate := fun _ => "D", stringify := fun _ => "doc" }

/-- C8 witness record (used twice: identical content). -/
def recW8 : JVal := .str "same record"

/-- First request of the C8 witness batch. -/
def reqW8a : PutRequest := processRecord ctxW8 "st" "bk" "aa" recW8

/-- Second request of the C8 witness batch. -/
def reqW8b : PutRequest := processRecord ctxW8 "st" "bk" "bb" recW8

/-- C8 witness: the amended theorem applied to a two-record batch of
identical records with distinct equal-length tokens, all hypotheses
discharged. -/
theorem storage_keys_distinct_witness :
    (handlerRequests ctxW8 "st" "bk" [recW8, recW8])[0]? = some reqW8a ∧
    (handlerRequests ctxW8 "st" "bk" [recW8, recW8])[1]? = some reqW8b ∧
    ctxW8.uuid 0 ≠ ctxW8.uuid 1 ∧
    reqW8a.key ≠ reqW8b.key :=
  ⟨rfl, rfl, by decide,
   storage_keys_distinct ctxW8 "st" "bk" [recW8, recW8] 0 1 reqW8a reqW8b
     rfl rfl (by decide) (Or.inl (by decide))⟩
